import Mathlib

set_option maxHeartbeats 1000000

/- Shallow embedding of the Compagnie-id/Landing client scripts:
   src/js/form-handler.js (submission rate limiting) and src/i18n.js
   (translation resolution and language handling).  Timestamps are
   millisecond instants modelled as Int; JSON documents are modelled by
   the JValue inductive below.  External collaborators (localStorage,
   JSON.parse of the stored log, the network fetch of a translation
   table) are passed in as explicit parameters. -/

/-- JSON-like values: translation tables and other parsed documents. -/
inductive JValue where
  | null : JValue
  | bool : Bool → JValue
  | num : Int → JValue
  | str : String → JValue
  | arr : List JValue → JValue
  | obj : List (String × JValue) → JValue

/-- Opening curly brace character; named so that no string literal in this
file has to contain a brace. -/
def lbrace : Char := Char.ofNat 123

/-- Closing curly brace character. -/
def rbrace : Char := Char.ofNat 125

/-- Whether a JValue is a string (JS typeof value === the string type). -/
def JValue.isString : JValue → Bool
  | JValue.str _ => true
  | _ => false

/-- JavaScript truthiness of a JSON value: null, false, 0 and the empty
string are falsy; every array and object is truthy. -/
def JValue.truthy : JValue → Bool
  | JValue.null => false
  | JValue.bool b => b
  | JValue.num n => n != 0
  | JValue.str s => s != ""
  | JValue.arr _ => true
  | JValue.obj _ => true

/-- Digits of a decimal numeral to a Nat (used for JS array index strings). -/
def digitsToNat (l : List Char) : Nat :=
  l.foldl (fun n c => n * 10 + (c.toNat - 48)) 0

/-- Canonical JS array index strings: a nonempty run of digits with no
leading zero (except the string consisting of the single digit zero). -/
def parseArrayIndex (l : List Char) : Option Nat :=
  match l with
  | [] => none
  | c :: cs =>
    if c = '0' then (if cs = [] then some 0 else none)
    else if c.isDigit && cs.all (fun d => d.isDigit) then some (digitsToNat (c :: cs))
    else none

/-- First-match association lookup among the own properties of a JS object. -/
def lookupField (fields : List (String × JValue)) (k : String) : Option JValue :=
  match fields with
  | [] => none
  | (fname, v) :: rest => if fname = k then some v else lookupField rest k

/-- JS property access value[k] on a JSON value, undefined modelled as none.
Objects look the key up among their fields; arrays and strings expose
their elements under canonical index strings and a length property;
numbers and booleans have no own properties (prototype methods are not
modelled, they never occur in a translation table walk). -/
def getProp (v : JValue) (k : String) : Option JValue :=
  match v with
  | JValue.obj fields => lookupField fields k
  | JValue.arr elems =>
    if k = "length" then some (JValue.num elems.length)
    else
      match parseArrayIndex k.data with
      | some i => elems[i]?
      | none => none
  | JValue.str s =>
    if k = "length" then some (JValue.num s.data.length)
    else
      match parseArrayIndex k.data with
      | some i =>
        match s.data[i]? with
        | some c => some (JValue.str (String.mk [c]))
        | none => none
      | none => none
  | _ => none

/-- Optional chaining value?.[k]: undefined and null short-circuit to
undefined, any other value is accessed with getProp. -/
def optChain (v : Option JValue) (k : String) : Option JValue :=
  match v with
  | none => none
  | some JValue.null => none
  | some w => getProp w k

/-- Splitting accumulator mirroring the JS String.split with a separator:
every separator occurrence splits, adjacent separators yield empty pieces. -/
def splitAux (sep : Char) : List Char → List Char → List String
  | [], acc => [String.mk acc.reverse]
  | c :: cs, acc =>
    if c = sep then String.mk acc.reverse :: splitAux sep cs []
    else splitAux sep cs (c :: acc)

/-- JS key.split of a dot separator, as used by the translation lookup. -/
def splitOnDot (l : List Char) : List String :=
  splitAux '.' l []

/-- Boolean list-prefix test (own definition, structural). -/
def leadsWith : List Char → List Char → Bool
  | [], _ => true
  | _ :: _, [] => false
  | p :: ps, c :: cs => p == c && leadsWith ps cs

/-- Boolean contiguous-sublist test, mirroring the JS String.includes. -/
def hasSubList (pat : List Char) : List Char → Bool
  | [] => pat.isEmpty
  | c :: cs => leadsWith pat (c :: cs) || hasSubList pat cs

/-- ASCII lower-casing of one character, as JS toLowerCase acts on the
characters relevant here. -/
def lowerChar (c : Char) : Char :=
  if 'A' ≤ c ∧ c ≤ 'Z' then Char.ofNat (c.toNat + 32) else c

namespace I18n

/-- The key-path walk of I18n.t: split the key on dots and optional-chain
through the translation table segment by segment. -/
def walkPath (translations : JValue) (key : String) : Option JValue :=
  (splitOnDot key.data).foldl optChain (some translations)

/-- JS word character (the regex word class): ASCII letter, digit or underscore. -/
def isWordChar (c : Char) : Bool :=
  c.isAlpha || c.isDigit || c = '_'

/-- First-match lookup of an interpolation parameter. -/
def lookupParam (params : List (String × String)) (pname : String) : Option String :=
  match params with
  | [] => none
  | (k, v) :: rest => if k = pname then some v else lookupParam rest pname

/-- Replacement text for one matched placeholder with inner word-run w:
the parameter value when present and truthy (JS params[param] or match,
where the empty string is falsy), else the matched text itself. -/
def substParam (params : List (String × String)) (w : List Char) : List Char :=
  match lookupParam params (String.mk w) with
  | some v => if v = "" then lbrace :: lbrace :: (w ++ [rbrace, rbrace]) else v.data
  | none => lbrace :: lbrace :: (w ++ [rbrace, rbrace])

/-- Closing part of the placeholder match: after the two opening braces,
w is the maximal word-character run and the remaining characters must
start with two closing braces; the run must be nonempty. -/
def placeholderTail (w : List Char) : List Char → Option (List Char × List Char)
  | d1 :: d2 :: rest2 =>
    if d1 = rbrace ∧ d2 = rbrace ∧ w ≠ [] then some (w, rest2) else none
  | _ => none

/-- Attempt to match the placeholder regex (two opening braces, a nonempty
run of word characters, two closing braces) at the head of the list;
on success return the inner word run and the remainder after the match. -/
def tryPlaceholder : List Char → Option (List Char × List Char)
  | c1 :: c2 :: rest =>
    if c1 = lbrace ∧ c2 = lbrace then
      placeholderTail (rest.takeWhile isWordChar) (rest.dropWhile isWordChar)
    else none
  | _ => none

/-- Left-to-right global regex replacement: at each position try the
placeholder pattern; on a match emit the replacement and continue after
it, otherwise emit one character and retry at the next position.  Fuel
bounds the scan; one unit is spent per position, so the input length is
always sufficient fuel. -/
def interpolateAux (params : List (String × String)) : Nat → List Char → List Char
  | 0, l => l
  | _ + 1, [] => []
  | fuel + 1, c :: cs =>
    match tryPlaceholder (c :: cs) with
    | some (w, rest2) => substParam params w ++ interpolateAux params fuel rest2
    | none => c :: interpolateAux params fuel cs

/-- The parameter interpolation performed by I18n.t on a resolved string. -/
def interpolate (s : String) (params : List (String × String)) : String :=
  String.mk (interpolateAux params s.data.length s.data)

/-- I18n.t: walk the key path; a resolved string is interpolated, any
other resolved value is returned when truthy, and otherwise (undefined
or falsy) the key itself is the fallback result. -/
def t (translations : JValue) (key : String) (params : List (String × String)) : JValue :=
  match walkPath translations key with
  | some (JValue.str s) => JValue.str (interpolate s params)
  | some v => if v.truthy then v else JValue.str key
  | none => JValue.str key

/-- I18n.loadTranslations with the recursion on the fallback language
unrolled (the recursive call fixes the language to en, whose own failure
branch does not recurse further): fetchTbl models the network fetch plus
JSON decode, none meaning the awaited chain threw.  Returns the new
translations value together with the list of languages fetched, in order. -/
def loadTranslations (fetchTbl : String → Option JValue) (current : JValue)
    (lang : String) : JValue × List String :=
  match fetchTbl lang with
  | some tbl => (tbl, [lang])
  | none =>
    if lang = "en" then (current, [lang])
    else
      match fetchTbl "en" with
      | some tbl => (tbl, [lang, "en"])
      | none => (current, [lang, "en"])

/-- Process-wide language state of the I18n class: the active language,
the loaded table, the persisted localStorage choice and the URL parameter. -/
structure I18nState where
  currentLang : String
  translations : JValue
  storedLang : Option String
  urlLang : Option String

/-- Observable side effects of one setLanguage call. -/
structure SetLanguageEffects where
  fetchedLangs : List String
  wroteStorage : Bool
  wroteUrl : Bool
  dispatchedEvent : Bool

/-- The absence of effects: nothing fetched, nothing written, no event. -/
def noSetLanguageEffects : SetLanguageEffects :=
  { fetchedLangs := [], wroteStorage := false, wroteUrl := false, dispatchedEvent := false }

/-- I18n.setLanguage: an early return when the language is already active,
otherwise set the language, persist it, reload the table, rewrite the URL
parameter and dispatch the languageChanged event. -/
def setLanguage (fetchTbl : String → Option JValue) (st : I18nState)
    (lang : String) : I18nState × SetLanguageEffects :=
  if lang = st.currentLang then (st, noSetLanguageEffects)
  else
    ({ currentLang := lang,
       translations := (loadTranslations fetchTbl st.translations lang).1,
       storedLang := some lang,
       urlLang := some lang },
     { fetchedLangs := (loadTranslations fetchTbl st.translations lang).2,
       wroteStorage := true, wroteUrl := true, dispatchedEvent := true })

/-- The supported language codes of the page. -/
def supportedLanguages : List String := ["en", "id", "ar"]

/-- Truthy-and-supported test applied to the URL parameter and the stored
choice (a missing value and the empty string are falsy in JS). -/
def langOk (o : Option String) : Bool :=
  match o with
  | none => false
  | some u => (u != "") && supportedLanguages.contains u

/-- ASCII lower-casing of a string. -/
def toLowerAscii (s : String) : String := String.mk (s.data.map lowerChar)

/-- JS startsWith on strings. -/
def strStartsWith (s pre : String) : Bool := leadsWith pre.data s.data

/-- JS includes on strings. -/
def strContains (s pat : String) : Bool := hasSubList pat.data s.data

/-- The primary language tag: the part of the browser locale before the
first dash, lower-cased (JS split on dash, first piece, toLowerCase). -/
def primaryLangOf (browserLang : String) : String :=
  toLowerAscii (String.mk (browserLang.data.takeWhile (fun c => c != '-')))

/-- The browser-language heuristic block of I18n.detectLanguage: Indonesian
markers first, then Arabic markers, then the primary tag, then the fixed
default id. -/
def browserDetect (browserLang : String) : String :=
  let langLower := toLowerAscii browserLang
  if strStartsWith langLower "id" || strContains langLower "indonesia" || strContains langLower "bahasa" then "id"
  else if strStartsWith langLower "ar" || strContains langLower "arabic" || strContains langLower "العربية" then "ar"
  else if primaryLangOf browserLang = "id" then "id"
  else if primaryLangOf browserLang = "ar" then "ar"
  else "id"

/-- I18n.detectLanguage: URL parameter first, then the persisted choice,
then the browser heuristics with their fixed default. -/
def detectLanguage (urlLang saved : Option String) (browserLang : String) : String :=
  if langOk urlLang then urlLang.getD ""
  else if langOk saved then saved.getD ""
  else browserDetect browserLang

end I18n

/-- The RATE_LIMIT configuration object consumed by the form handler. -/
structure RateLimitPolicy where
  MAX_ATTEMPTS_PER_HOUR : Nat
  ATTEMPT_WINDOW_HOURS : Nat
  STORAGE_KEY : String
  BLOCK_MESSAGE : String

namespace FormHandler

/-- The window length in milliseconds: windowHours times 60 times 60 times 1000. -/
def attemptWindowMs (p : RateLimitPolicy) : Int :=
  (p.ATTEMPT_WINDOW_HOURS : Int) * 60 * 60 * 1000

/-- FormHandler.getSubmissionAttempts.  The read from localStorage is a
parameter: an error models a throwing storage, ok none an absent key,
ok some the stored string.  parse models JSON.parse specialised to the
timestamp-array shape the handler stores, none meaning parse threw; the
surrounding try/catch converts every failure into the empty list. -/
def getSubmissionAttempts (cfg : Option RateLimitPolicy)
    (parse : String → Option (List Int))
    (read : Except Unit (Option String)) : List Int :=
  match cfg with
  | none => []
  | some _ =>
    match read with
    | Except.error _ => []
    | Except.ok none => []
    | Except.ok (some stored) =>
      if stored = "" then []
      else
        match parse stored with
        | some attempts => attempts
        | none => []

/-- FormHandler.saveSubmissionAttempts: the setItem outcome is a parameter
(error meaning the storage write threw); the catch block only logs, so the
function always returns normally. -/
def saveSubmissionAttempts (cfg : Option RateLimitPolicy)
    (writeOutcome : Except Unit Unit) : Except Unit Unit :=
  match cfg with
  | none => Except.ok ()
  | some _ =>
    match writeOutcome with
    | Except.ok _ => Except.ok ()
    | Except.error _ => Except.ok ()

/-- FormHandler.canSubmit: with no policy configured the gate is open;
otherwise read the log, keep the timestamps strictly newer than
now minus the window, and admit while their count is below the maximum. -/
def canSubmit (cfg : Option RateLimitPolicy) (parse : String → Option (List Int))
    (read : Except Unit (Option String)) (now : Int) : Bool :=
  match cfg with
  | none => true
  | some p =>
    let attempts := getSubmissionAttempts cfg parse read
    let windowStart := now - attemptWindowMs p
    let recentAttempts := attempts.filter (fun tm => decide (windowStart < tm))
    decide (recentAttempts.length < p.MAX_ATTEMPTS_PER_HOUR)

/-- State-passing wrapper of canSubmit over the stored string at the
rate-limit key: the source only ever calls getItem here, never setItem or
removeItem, so the stored value is returned unchanged. -/
def canSubmitStore (cfg : Option RateLimitPolicy) (parse : String → Option (List Int))
    (store : Option String) (now : Int) : Bool × Option String :=
  (canSubmit cfg parse (Except.ok store) now, store)

/-- FormHandler.recordSubmission: push now onto the log, filter to the
window, save.  The result is the pruned list handed to
saveSubmissionAttempts (what gets persisted, JSON round-trip being
faithful on integer arrays); none when no policy is configured and the
early return skips the save. -/
def recordSubmission (cfg : Option RateLimitPolicy) (parse : String → Option (List Int))
    (read : Except Unit (Option String)) (now : Int) : Option (List Int) :=
  match cfg with
  | none => none
  | some p =>
    let attempts := getSubmissionAttempts cfg parse read ++ [now]
    let windowStart := now - attemptWindowMs p
    some (attempts.filter (fun tm => decide (windowStart < tm)))

/-- Minimum of a list of timestamps, as JS Math.min spread over an array;
only ever used on nonempty lists by the source. -/
def listMin : List Int → Int
  | [] => 0
  | [x] => x
  | x :: y :: rest => min x (listMin (y :: rest))

/-- FormHandler.checkAndUpdateRateLimitDisplay reduced to its scheduling
decision: the reset instant passed to scheduleRateLimitReset, or none when
no reset is scheduled (display updates are presentation and not modelled). -/
def checkAndUpdateRateLimitDisplay (cfg : Option RateLimitPolicy)
    (parse : String → Option (List Int)) (read : Except Unit (Option String))
    (now : Int) : Option Int :=
  match cfg with
  | none => none
  | some p =>
    let attempts := getSubmissionAttempts cfg parse read
    let windowStart := now - attemptWindowMs p
    let recentAttempts := attempts.filter (fun tm => decide (windowStart < tm))
    let remainingAttempts : Int := max 0 ((p.MAX_ATTEMPTS_PER_HOUR : Int) - recentAttempts.length)
    if 0 < recentAttempts.length ∧ remainingAttempts = 0 then
      some (listMin recentAttempts + attemptWindowMs p)
    else none

/-- FormHandler.scheduleRateLimitReset over the pending-timeout state:
with a nonpositive delay the reset runs immediately and the pending
timeout is untouched; otherwise any pending timeout is cleared and the
new one stored.  The boolean reports an immediate reset. -/
def scheduleRateLimitReset (pending : Option Int) (resetTime now : Int) : Option Int × Bool :=
  let delay := max 0 (resetTime - now)
  if delay ≤ 0 then (pending, true)
  else (some resetTime, false)

/-- The recent-attempt list the handler recomputes before each decision. -/
def recentAttemptsOf (p : RateLimitPolicy) (parse : String → Option (List Int))
    (read : Except Unit (Option String)) (now : Int) : List Int :=
  (getSubmissionAttempts (some p) parse read).filter
    (fun tm => decide (now - attemptWindowMs p < tm))

/-- Modelled from the spec: the count of logged timestamps lying within
the closed window from now minus the window duration up to now, as the
specification words the sliding window; stated for comparison with the
strict filter the code applies. -/
def countWithinClosedWindow (attempts : List Int) (windowDur now : Int) : Nat :=
  (attempts.filter (fun tm => decide (now - windowDur ≤ tm ∧ tm ≤ now))).length

/-- A concrete policy used by counterexamples and witnesses: one attempt
per one-hour window. -/
def pEx : RateLimitPolicy :=
  { MAX_ATTEMPTS_PER_HOUR := 1, ATTEMPT_WINDOW_HOURS := 1,
    STORAGE_KEY := "tawazn_submission_attempts",
    BLOCK_MESSAGE := "Too many submission attempts. Please try again later." }

/-- A concrete JSON.parse fragment for the stored strings appearing in
counterexamples and witnesses. -/
def parseEx (s : String) : Option (List Int) :=
  if s = "[0]" then some [0]
  else if s = "[1000]" then some [1000]
  else none

end FormHandler

/-- Helper fact: the empty scan emits nothing whatever fuel remains. -/
theorem interpolateAux_nil (params : List (String × String)) (fuel : Nat) :
    I18n.interpolateAux params fuel [] = [] := by
  cases fuel <;> rfl

/-- Helper fact: a position with no placeholder match emits one character. -/
theorem interpolateAux_cons_none (params : List (String × String)) (fuel : Nat)
    (c : Char) (cs : List Char) (h : I18n.tryPlaceholder (c :: cs) = none) :
    I18n.interpolateAux params (fuel + 1) (c :: cs) = c :: I18n.interpolateAux params fuel cs := by
  simp only [I18n.interpolateAux, h]

/-- Helper fact: a matched placeholder emits its replacement and continues
after the match. -/
theorem interpolateAux_cons_some (params : List (String × String)) (fuel : Nat)
    (c : Char) (cs w rest2 : List Char)
    (h : I18n.tryPlaceholder (c :: cs) = some (w, rest2)) :
    I18n.interpolateAux params (fuel + 1) (c :: cs) =
      I18n.substParam params w ++ I18n.interpolateAux params fuel rest2 := by
  simp only [I18n.interpolateAux, h]

/-- Helper fact: the placeholder pattern fails when the first character is
not an opening brace. -/
theorem tryPlaceholder_head_ne (c : Char) (cs : List Char) (h : c ≠ lbrace) :
    I18n.tryPlaceholder (c :: cs) = none := by
  cases cs with
  | nil => rfl
  | cons c2 rest =>
    simp only [I18n.tryPlaceholder]
    rw [if_neg]
    intro hcon
    exact h hcon.1

/-- Helper fact: the placeholder pattern fails when the second character is
not an opening brace. -/
theorem tryPlaceholder_snd_ne (c1 c2 : Char) (rest : List Char) (h : c2 ≠ lbrace) :
    I18n.tryPlaceholder (c1 :: c2 :: rest) = none := by
  simp only [I18n.tryPlaceholder]
  rw [if_neg]
  intro hcon
  exact h hcon.2

/-- Helper fact: scanning a list with no opening brace changes nothing. -/
theorem interpolateAux_no_lbrace (params : List (String × String)) :
    ∀ (fuel : Nat) (l : List Char), (∀ c ∈ l, c ≠ lbrace) →
    I18n.interpolateAux params fuel l = l := by
  intro fuel
  induction fuel with
  | zero => intro l _; rfl
  | succ n ih =>
    intro l h
    cases l with
    | nil => rfl
    | cons c cs =>
      rw [interpolateAux_cons_none params n c cs (tryPlaceholder_head_ne c cs (h c (by simp)))]
      rw [ih cs (fun d hd => h d (by simp [hd]))]

/-- Helper fact: takeWhile and dropWhile distribute over an all-satisfying
prefix of an append. -/
theorem takeWhile_dropWhile_append (p : Char → Bool) (w tail : List Char)
    (h : ∀ c ∈ w, p c = true) :
    (w ++ tail).takeWhile p = w ++ tail.takeWhile p ∧
    (w ++ tail).dropWhile p = tail.dropWhile p := by
  induction w with
  | nil => exact ⟨rfl, rfl⟩
  | cons c cs ih =>
    have hc : p c = true := h c (by simp)
    have ih2 := ih (fun d hd => h d (by simp [hd]))
    constructor
    · simp [List.takeWhile_cons, hc, ih2.1]
    · simp [List.dropWhile_cons, hc, ih2.2]

/-- Helper fact: dropping word characters from a run that contains a
non-word character and no closing brace stops at a character that is not
a closing brace. -/
theorem dropWhile_stops (w tail : List Char) :
    (∃ c ∈ w, I18n.isWordChar c = false) → (∀ c ∈ w, c ≠ rbrace) →
    ∃ d ds, (w ++ tail).dropWhile I18n.isWordChar = d :: ds ∧ d ≠ rbrace := by
  induction w with
  | nil =>
    intro hex _
    obtain ⟨c, hc, _⟩ := hex
    exact absurd hc (List.not_mem_nil c)
  | cons c cs ih =>
    intro hex hnr
    by_cases hw : I18n.isWordChar c = true
    · have hex2 : ∃ d ∈ cs, I18n.isWordChar d = false := by
        obtain ⟨d, hd, hdw⟩ := hex
        rcases List.mem_cons.mp hd with h | h
        · subst h; rw [hw] at hdw; cases hdw
        · exact ⟨d, h, hdw⟩
      obtain ⟨d, ds, hdd, hne⟩ := ih hex2 (fun d hd => hnr d (by simp [hd]))
      refine ⟨d, ds, ?_, hne⟩
      simp [List.dropWhile_cons, hw, hdd]
    · refine ⟨c, cs ++ tail, ?_, hnr c (by simp)⟩
      simp [List.dropWhile_cons, hw]

/-- C10: placeholder interpolation in I18n.t substitutes only inner runs
made of word characters; a brace-free inner text containing a non-word
character (a hyphen, dot or space) is left intact in the output for every
parameter mapping, including one that contains the inner text as a key. -/
theorem interpolate_nonword_placeholder_intact :
    ∀ (inner : List Char) (params : List (String × String)),
    inner ≠ [] → (∃ c ∈ inner, I18n.isWordChar c = false) →
    (∀ c ∈ inner, c ≠ lbrace ∧ c ≠ rbrace) →
    I18n.interpolate (String.mk (lbrace :: lbrace :: (inner ++ [rbrace, rbrace]))) params =
      String.mk (lbrace :: lbrace :: (inner ++ [rbrace, rbrace])) := by
  intro inner params hne hex hbr
  obtain ⟨i0, irest, rfl⟩ : ∃ a l, inner = a :: l := by
    cases inner with
    | nil => exact absurd rfl hne
    | cons a l => exact ⟨a, l, rfl⟩
  have h1 : I18n.tryPlaceholder (lbrace :: lbrace :: ((i0 :: irest) ++ [rbrace, rbrace])) = none := by
    obtain ⟨d, ds, hdd, hdne⟩ :=
      dropWhile_stops (i0 :: irest) [rbrace, rbrace] hex (fun c hc => (hbr c hc).2)
    simp only [I18n.tryPlaceholder]
    rw [if_pos (⟨trivial, trivial⟩ : True ∧ True), hdd]
    cases ds with
    | nil => rfl
    | cons d2 rest2 =>
      simp only [I18n.placeholderTail]
      rw [if_neg]
      intro hcon
      exact hdne hcon.1
  have hi0 : i0 ≠ lbrace := (hbr i0 (by simp)).1
  have h2 : I18n.tryPlaceholder (lbrace :: ((i0 :: irest) ++ [rbrace, rbrace])) = none :=
    tryPlaceholder_snd_ne lbrace i0 (irest ++ [rbrace, rbrace]) hi0
  have h3 : ∀ c ∈ (i0 :: irest) ++ [rbrace, rbrace], c ≠ lbrace := by
    intro c hc
    rcases List.mem_append.mp hc with h | h
    · exact (hbr c h).1
    · rcases List.mem_cons.mp h with rfl | h2
      · decide
      · rcases List.mem_cons.mp h2 with rfl | h3
        · decide
        · exact absurd h3 (List.not_mem_nil c)
  have hlen : (String.mk (lbrace :: lbrace :: ((i0 :: irest) ++ [rbrace, rbrace]))).data.length
      = irest.length + 3 + 1 + 1 := by
    simp [List.length_append]
  unfold I18n.interpolate
  rw [hlen]
  show String.mk (I18n.interpolateAux params (irest.length + 3 + 1 + 1)
        (lbrace :: lbrace :: ((i0 :: irest) ++ [rbrace, rbrace]))) = _
  rw [interpolateAux_cons_none params (irest.length + 3 + 1) lbrace
        (lbrace :: ((i0 :: irest) ++ [rbrace, rbrace])) h1]
  rw [interpolateAux_cons_none params (irest.length + 3) lbrace
        ((i0 :: irest) ++ [rbrace, rbrace]) h2]
  rw [interpolateAux_no_lbrace params (irest.length + 3) ((i0 :: irest) ++ [rbrace, rbrace]) h3]

/-- C10 witness: a hyphenated placeholder is left intact even though the
parameter mapping contains the hyphenated name. -/
theorem interpolate_nonword_placeholder_witness :
    I18n.interpolate (String.mk (lbrace :: lbrace :: ("a-b".data ++ [rbrace, rbrace]))) [("a-b", "x")] =
      String.mk (lbrace :: lbrace :: ("a-b".data ++ [rbrace, rbrace])) :=
  interpolate_nonword_placeholder_intact "a-b".data [("a-b", "x")] (by decide) (by decide) (by decide)

/-- C3 (amended): I18n.t splits the key on dots and walks the table; a key
path resolving to a string yields that string interpolated, where a
matched placeholder (two opening braces, a nonempty word-character run w,
two closing braces) is replaced according to substParam: by the parameter
value whenever params contains the name with a NON-EMPTY value, and left
intact when the name is absent or maps to the empty string; a key path
with an absent segment yields the key path string itself unchanged. -/
theorem t_resolution_and_interpolation :
    ∀ (table : JValue) (key : String) (params : List (String × String))
      (s : String) (w : List Char),
    (I18n.walkPath table key = some (JValue.str s) →
       I18n.t table key params = JValue.str (I18n.interpolate s params)) ∧
    (I18n.walkPath table key = none → I18n.t table key params = JValue.str key) ∧
    (w ≠ [] → (∀ c ∈ w, I18n.isWordChar c = true) →
       I18n.interpolate (String.mk (lbrace :: lbrace :: (w ++ [rbrace, rbrace]))) params =
         String.mk (I18n.substParam params w)) := by
  intro table key params s w
  refine ⟨?_, ?_, ?_⟩
  · intro h
    simp only [I18n.t]
    rw [h]
  · intro h
    simp only [I18n.t]
    rw [h]
  · intro hne hw
    have htd := takeWhile_dropWhile_append I18n.isWordChar w [rbrace, rbrace] hw
    have hdw : List.dropWhile I18n.isWordChar [rbrace, rbrace] = [rbrace, rbrace] := by decide
    have htw : List.takeWhile I18n.isWordChar [rbrace, rbrace] = [] := by decide
    have hmatch : I18n.tryPlaceholder (lbrace :: lbrace :: (w ++ [rbrace, rbrace])) = some (w, []) := by
      simp only [I18n.tryPlaceholder]
      rw [if_pos (⟨trivial, trivial⟩ : True ∧ True), htd.1, htd.2, hdw, htw, List.append_nil]
      simp only [I18n.placeholderTail]
      rw [if_pos (⟨trivial, trivial, hne⟩ : True ∧ True ∧ w ≠ [])]
    have hlen : (String.mk (lbrace :: lbrace :: (w ++ [rbrace, rbrace]))).data.length
        = w.length + 3 + 1 := by
      simp [List.length_append]
    unfold I18n.interpolate
    rw [hlen]
    show String.mk (I18n.interpolateAux params (w.length + 3 + 1)
          (lbrace :: lbrace :: (w ++ [rbrace, rbrace]))) = _
    rw [interpolateAux_cons_some params (w.length + 3) lbrace
          (lbrace :: (w ++ [rbrace, rbrace])) w [] hmatch]
    rw [interpolateAux_nil, List.append_nil]

/-- C3 witness: a present key path resolves and interpolates; a word
placeholder whose nonempty parameter value is NOT the first entry of the
params mapping is substituted per substParam, and that substitution
evaluates to the parameter value; an absent key path yields the key. -/
theorem t_resolution_witness :
    I18n.t (JValue.obj [("a", JValue.str "x")]) "a" [("x", "1"), ("name", "Bob")] =
      JValue.str (I18n.interpolate "x" [("x", "1"), ("name", "Bob")]) ∧
    I18n.interpolate (String.mk (lbrace :: lbrace :: ("name".data ++ [rbrace, rbrace])))
        [("x", "1"), ("name", "Bob")] =
      String.mk (I18n.substParam [("x", "1"), ("name", "Bob")] "name".data) ∧
    I18n.substParam [("x", "1"), ("name", "Bob")] "name".data = "Bob".data ∧
    I18n.t (JValue.obj [("a", JValue.str "x")]) "zz" [] = JValue.str "zz" :=
  ⟨(t_resolution_and_interpolation (JValue.obj [("a", JValue.str "x")]) "a"
      [("x", "1"), ("name", "Bob")] "x" "name".data).1 rfl,
   (t_resolution_and_interpolation (JValue.obj [("a", JValue.str "x")]) "a"
      [("x", "1"), ("name", "Bob")] "x" "name".data).2.2 (by decide) (by decide),
   rfl,
   (t_resolution_and_interpolation (JValue.obj [("a", JValue.str "x")]) "zz"
      [] "x" "name".data).2.1 rfl⟩

/-- C3 counterexample: with a parameter present but bound to the empty
string, the code leaves the placeholder text intact (JS value-or-match on
a falsy value), while the claim as stated requires substitution of the
empty string; the result is the original text, not the substituted one. -/
theorem t_empty_param_not_substituted_cex :
    I18n.t (JValue.obj [("a", JValue.str (String.mk
        ['h','i',' ', lbrace, lbrace, 'n','a','m','e', rbrace, rbrace]))]) "a" [("name", "")] =
      JValue.str (String.mk ['h','i',' ', lbrace, lbrace, 'n','a','m','e', rbrace, rbrace]) ∧
    JValue.str (String.mk ['h','i',' ', lbrace, lbrace, 'n','a','m','e', rbrace, rbrace]) ≠
      JValue.str "hi " := by
  constructor
  · rfl
  · intro h
    injection h with h2
    exact absurd h2 (by decide)

/-- C9 (amended): a key path resolving to a non-string value yields that
value itself exactly when the value is truthy (every array and object is);
a falsy non-string resolved value (null, false or zero) yields the key
path string instead, by the JS value-or-key fallback. -/
theorem t_nonstring_truthy_asis :
    ∀ (table : JValue) (key : String) (params : List (String × String)) (v : JValue),
    I18n.walkPath table key = some v → JValue.isString v = false →
    I18n.t table key params = (if v.truthy then v else JValue.str key) := by
  intro table key params v hw hs
  simp only [I18n.t]
  rw [hw]
  cases v
  case str s => simp [JValue.isString] at hs
  all_goals rfl

/-- C9 witness: an array-valued key path is returned as-is (arrays are
truthy, so the conditional result is the array itself). -/
theorem t_nonstring_truthy_witness :
    I18n.t (JValue.obj [("a", JValue.arr [JValue.str "x"])]) "a" [] =
      (if (JValue.arr [JValue.str "x"]).truthy then JValue.arr [JValue.str "x"]
       else JValue.str "a") :=
  t_nonstring_truthy_asis (JValue.obj [("a", JValue.arr [JValue.str "x"])]) "a" []
    (JValue.arr [JValue.str "x"]) rfl rfl

/-- C9 counterexample: the key path a is present and resolves to the
non-string value null, yet I18n.t returns the key path string, not the
resolved value as the claim states. -/
theorem t_falsy_nonstring_cex :
    I18n.walkPath (JValue.obj [("a", JValue.null)]) "a" = some JValue.null ∧
    I18n.t (JValue.obj [("a", JValue.null)]) "a" [] = JValue.str "a" ∧
    JValue.str "a" ≠ JValue.null :=
  ⟨rfl, rfl, fun h => JValue.noConfusion h⟩

/-- C6 (amended): on a fetch failure loadTranslations falls back to
fetching the English table only when the requested language is not
English; when the requested language is English, or when the English
fetch fails as well, the previous table is left in place (so a total
fetch failure leaves the table empty rather than guaranteeing a loaded
table). -/
theorem loadTranslations_fallback_cases :
    ∀ (fetchTbl : String → Option JValue) (current : JValue) (lang : String) (tbl : JValue),
    (fetchTbl lang = some tbl → I18n.loadTranslations fetchTbl current lang = (tbl, [lang])) ∧
    (fetchTbl lang = none → lang ≠ "en" → ∀ tbl2, fetchTbl "en" = some tbl2 →
       I18n.loadTranslations fetchTbl current lang = (tbl2, [lang, "en"])) ∧
    (fetchTbl lang = none → lang ≠ "en" → fetchTbl "en" = none →
       I18n.loadTranslations fetchTbl current lang = (current, [lang, "en"])) ∧
    (fetchTbl lang = none → lang = "en" →
       I18n.loadTranslations fetchTbl current lang = (current, [lang])) := by
  intro f current lang tbl
  refine ⟨?_, ?_, ?_, ?_⟩
  · intro h
    simp [I18n.loadTranslations, h]
  · intro h hne tbl2 hen
    simp [I18n.loadTranslations, h, hne, hen]
  · intro h hne hen
    simp [I18n.loadTranslations, h, hne, hen]
  · intro h he
    subst he
    simp [I18n.loadTranslations, h]

/-- C6 witness: a successful fetch replaces the table wholesale and only
the requested language is fetched. -/
theorem loadTranslations_fallback_witness :
    I18n.loadTranslations (fun _ => some (JValue.obj [])) JValue.null "id" =
      (JValue.obj [], ["id"]) :=
  (loadTranslations_fallback_cases (fun _ => some (JValue.obj []))
    JValue.null "id" (JValue.obj [])).1 rfl

/-- C6 counterexample: when every fetch fails the resolver does not end up
with a loaded English table; the previous (empty) table is left in place,
both for a non-English request whose fallback fetch fails and for an
English request, contradicting the claim that the resolver always ends
initialization with some table loaded rather than stale or empty. -/
theorem loadTranslations_fallback_cex :
    (I18n.loadTranslations (fun _ => none) (JValue.obj []) "id").1 = JValue.obj [] ∧
    (I18n.loadTranslations
        (fun l => if l = "en" then none else some (JValue.obj [("k", JValue.str "v")]))
        (JValue.obj []) "en").1 = JValue.obj [] :=
  ⟨rfl, rfl⟩

/-- C7: setLanguage is a no-op (no fetch, no storage write, no URL write,
no event) when the requested language is already active; in particular a
second consecutive call with the same language leaves the state unchanged
and performs no effects. -/
theorem setLanguage_idempotent :
    ∀ (fetchTbl : String → Option JValue) (st : I18n.I18nState) (lang : String),
    (lang = st.currentLang →
       I18n.setLanguage fetchTbl st lang = (st, I18n.noSetLanguageEffects)) ∧
    (I18n.setLanguage fetchTbl (I18n.setLanguage fetchTbl st lang).1 lang =
       ((I18n.setLanguage fetchTbl st lang).1, I18n.noSetLanguageEffects)) := by
  intro f st lang
  constructor
  · intro h
    simp [I18n.setLanguage, h]
  · by_cases h : lang = st.currentLang
    · simp [I18n.setLanguage, h]
    · simp [I18n.setLanguage, h]

/-- C7 witness: a call with the already-active language is a no-op with no
effects, and the repeated call equation holds at a concrete state. -/
theorem setLanguage_idempotent_witness :
    I18n.setLanguage (fun _ => none) ⟨"id", JValue.obj [], none, none⟩ "id" =
      (⟨"id", JValue.obj [], none, none⟩, I18n.noSetLanguageEffects) :=
  (setLanguage_idempotent (fun _ => none) ⟨"id", JValue.obj [], none, none⟩ "id").1 rfl

/-- C8: language auto-detection precedence: a supported URL parameter wins;
otherwise a supported persisted choice; otherwise the browser heuristics;
and when no heuristic condition fires the fixed default id is returned. -/
theorem detectLanguage_precedence :
    ∀ (urlLang saved : Option String) (browserLang : String) (u sv : String),
    (urlLang = some u → u ∈ I18n.supportedLanguages →
       I18n.detectLanguage urlLang saved browserLang = u) ∧
    (I18n.langOk urlLang = false → saved = some sv → sv ∈ I18n.supportedLanguages →
       I18n.detectLanguage urlLang saved browserLang = sv) ∧
    (I18n.langOk urlLang = false → I18n.langOk saved = false →
       I18n.detectLanguage urlLang saved browserLang = I18n.browserDetect browserLang) ∧
    ((I18n.strStartsWith (I18n.toLowerAscii browserLang) "id" ||
        I18n.strContains (I18n.toLowerAscii browserLang) "indonesia" ||
        I18n.strContains (I18n.toLowerAscii browserLang) "bahasa") = false →
     (I18n.strStartsWith (I18n.toLowerAscii browserLang) "ar" ||
        I18n.strContains (I18n.toLowerAscii browserLang) "arabic" ||
        I18n.strContains (I18n.toLowerAscii browserLang) "العربية") = false →
     I18n.primaryLangOf browserLang ≠ "id" → I18n.primaryLangOf browserLang ≠ "ar" →
     I18n.browserDetect browserLang = "id") := by
  intro urlLang saved browserLang u sv
  refine ⟨?_, ?_, ?_, ?_⟩
  · intro h hu
    subst h
    simp only [I18n.supportedLanguages, List.mem_cons, List.not_mem_nil, or_false] at hu
    rcases hu with rfl | rfl | rfl <;> rfl
  · intro hfail h hs
    subst h
    simp only [I18n.detectLanguage, hfail, Bool.false_eq_true, if_false]
    simp only [I18n.supportedLanguages, List.mem_cons, List.not_mem_nil, or_false] at hs
    rcases hs with rfl | rfl | rfl <;> rfl
  · intro h1 h2
    simp [I18n.detectLanguage, h1, h2]
  · intro h1 h2 h3 h4
    simp [I18n.browserDetect, h1, h2, h3, h4]

/-- C8 witness: concrete instances of each precedence rule: a supported
URL parameter beats a stored choice, the stored choice beats the browser
locale, the heuristics take over when both are absent, and an unmatched
locale falls to the fixed default id. -/
theorem detectLanguage_precedence_witness :
    I18n.detectLanguage (some "ar") (some "en") "id-ID" = "ar" ∧
    I18n.detectLanguage none (some "en") "id-ID" = "en" ∧
    I18n.detectLanguage none none "fr-FR" = I18n.browserDetect "fr-FR" ∧
    I18n.browserDetect "en-US" = "id" :=
  ⟨(detectLanguage_precedence (some "ar") (some "en") "id-ID" "ar" "en").1 rfl (by decide),
   (detectLanguage_precedence none (some "en") "id-ID" "ar" "en").2.1 rfl rfl (by decide),
   (detectLanguage_precedence none none "fr-FR" "ar" "en").2.2.1 rfl rfl,
   (detectLanguage_precedence none none "en-US" "ar" "en").2.2.2
     (by decide) (by decide) (by decide) (by decide)⟩

/-- C1 (amended): with a configured policy, canSubmit returns true exactly
when the number of logged timestamps strictly greater than now minus the
window duration (the strict filter the code applies, with no upper bound
at now) is strictly less than the configured maximum. -/
theorem canSubmit_iff_recent_lt_max :
    ∀ (p : RateLimitPolicy) (parse : String → Option (List Int))
      (read : Except Unit (Option String)) (now : Int),
    FormHandler.canSubmit (some p) parse read now = true ↔
      (FormHandler.recentAttemptsOf p parse read now).length < p.MAX_ATTEMPTS_PER_HOUR := by
  intro p parse read now
  simp [FormHandler.canSubmit, FormHandler.recentAttemptsOf]

/-- C1 counterexample: the claimed closed window disagrees with the code
at both edges.  A timestamp exactly one window old is outside the strict
filter, so canSubmit admits although the closed-window count has reached
the maximum; a timestamp in the future is inside the strict filter, so
canSubmit denies although the closed-window count is below the maximum. -/
theorem canSubmit_closed_window_cex :
    (FormHandler.getSubmissionAttempts (some FormHandler.pEx) FormHandler.parseEx
        (Except.ok (some "[0]")) = [0] ∧
     FormHandler.canSubmit (some FormHandler.pEx) FormHandler.parseEx
        (Except.ok (some "[0]")) 3600000 = true ∧
     ¬ (FormHandler.countWithinClosedWindow [0]
          (FormHandler.attemptWindowMs FormHandler.pEx) 3600000 <
        FormHandler.pEx.MAX_ATTEMPTS_PER_HOUR)) ∧
    (FormHandler.getSubmissionAttempts (some FormHandler.pEx) FormHandler.parseEx
        (Except.ok (some "[1000]")) = [1000] ∧
     FormHandler.canSubmit (some FormHandler.pEx) FormHandler.parseEx
        (Except.ok (some "[1000]")) 0 = false ∧
     FormHandler.countWithinClosedWindow [1000]
        (FormHandler.attemptWindowMs FormHandler.pEx) 0 <
       FormHandler.pEx.MAX_ATTEMPTS_PER_HOUR) := by
  refine ⟨⟨?_, ?_, ?_⟩, ⟨?_, ?_, ?_⟩⟩ <;> decide

/-- C2 (amended): every timestamp persisted by recordSubmission lies
strictly inside the trailing window (the pruned log is what is saved),
while the read side canSubmit filters only in memory and leaves the
stored value unchanged. -/
theorem recordSubmission_prunes_and_reads_pure :
    ∀ (p : RateLimitPolicy) (parse : String → Option (List Int))
      (read : Except Unit (Option String)) (now : Int),
    (∀ l tm, FormHandler.recordSubmission (some p) parse read now = some l → tm ∈ l →
       now - FormHandler.attemptWindowMs p < tm) ∧
    (∀ (cfg : Option RateLimitPolicy) (store : Option String),
       (FormHandler.canSubmitStore cfg parse store now).2 = store) := by
  intro p parse read now
  constructor
  · intro l tm hl hm
    simp only [FormHandler.recordSubmission, Option.some.injEq] at hl
    subst hl
    have := List.mem_filter.mp hm
    exact of_decide_eq_true this.2
  · intro cfg store
    rfl

/-- C2 witness: a recorded timestamp is inside the window at a concrete
instant, and the read side returns the stored string unchanged. -/
theorem recordSubmission_prunes_witness :
    (0 : Int) - FormHandler.attemptWindowMs FormHandler.pEx < 0 ∧
    (FormHandler.canSubmitStore (some FormHandler.pEx) FormHandler.parseEx
        (some "[0]") 0).2 = some "[0]" :=
  ⟨(recordSubmission_prunes_and_reads_pure FormHandler.pEx FormHandler.parseEx
      (Except.ok none) 0).1 [0] 0 (by decide) (by decide),
   (recordSubmission_prunes_and_reads_pure FormHandler.pEx FormHandler.parseEx
      (Except.ok none) 0).2 (some FormHandler.pEx) (some "[0]")⟩

/-- C2 counterexample: a read-filter operation does not prune storage: the
stored log still holds timestamp 0 after canSubmit ran at an instant for
which 0 is strictly older than the window start, so an out-of-window entry
remains persisted, contradicting the claimed storage invariant for reads. -/
theorem canSubmit_read_does_not_prune_cex :
    (FormHandler.canSubmitStore (some FormHandler.pEx) FormHandler.parseEx
        (some "[0]") 7200000).2 = some "[0]" ∧
    FormHandler.parseEx "[0]" = some [0] ∧
    (0 : Int) < 7200000 - FormHandler.attemptWindowMs FormHandler.pEx := by
  refine ⟨?_, ?_, ?_⟩ <;> decide

/-- C4: the reset is scheduled only when the remaining count is zero and
at least one recent attempt exists, with reset instant the oldest recent
attempt plus the window; a reset instant at or before now fires the reset
immediately without touching the pending timeout; a strictly future reset
instant replaces any pending timeout with exactly one new one. -/
theorem rateLimitReset_scheduling :
    ∀ (p : RateLimitPolicy) (parse : String → Option (List Int))
      (read : Except Unit (Option String)) (now : Int)
      (pending : Option Int) (resetTime : Int),
    (FormHandler.recentAttemptsOf p parse read now ≠ [] →
       p.MAX_ATTEMPTS_PER_HOUR ≤ (FormHandler.recentAttemptsOf p parse read now).length →
       FormHandler.checkAndUpdateRateLimitDisplay (some p) parse read now =
         some (FormHandler.listMin (FormHandler.recentAttemptsOf p parse read now) +
               FormHandler.attemptWindowMs p)) ∧
    ((FormHandler.recentAttemptsOf p parse read now).length < p.MAX_ATTEMPTS_PER_HOUR →
       FormHandler.checkAndUpdateRateLimitDisplay (some p) parse read now = none) ∧
    (FormHandler.recentAttemptsOf p parse read now = [] →
       FormHandler.checkAndUpdateRateLimitDisplay (some p) parse read now = none) ∧
    (resetTime ≤ now →
       FormHandler.scheduleRateLimitReset pending resetTime now = (pending, true)) ∧
    (now < resetTime →
       FormHandler.scheduleRateLimitReset pending resetTime now = (some resetTime, false)) := by
  intro p parse read now pending resetTime
  refine ⟨?_, ?_, ?_, ?_, ?_⟩
  · intro hne hle
    simp only [FormHandler.recentAttemptsOf] at hne hle ⊢
    simp only [FormHandler.checkAndUpdateRateLimitDisplay]
    rw [if_pos ⟨List.length_pos.mpr hne, max_eq_left (by omega)⟩]
  · intro hlt
    simp only [FormHandler.recentAttemptsOf] at hlt
    simp only [FormHandler.checkAndUpdateRateLimitDisplay]
    rw [if_neg]
    intro hcon
    have h2 := max_eq_left_iff.mp hcon.2
    omega
  · intro h0
    simp only [FormHandler.recentAttemptsOf] at h0
    simp only [FormHandler.checkAndUpdateRateLimitDisplay]
    rw [if_neg]
    intro hcon
    rw [h0] at hcon
    simp at hcon
  · intro h
    simp only [FormHandler.scheduleRateLimitReset]
    rw [if_pos (max_le (le_refl (0 : Int)) (by omega))]
  · intro h
    have hpos : ¬ (max (0 : Int) (resetTime - now) ≤ 0) := by
      intro hle
      have h2 := le_max_right (0 : Int) (resetTime - now)
      omega
    simp only [FormHandler.scheduleRateLimitReset]
    rw [if_neg hpos]

/-- C4 witness: at a concrete exhausted log the reset is scheduled at the
oldest attempt plus the window; a past reset instant fires immediately
leaving the pending timeout alone; a future one replaces the pending
timeout. -/
theorem rateLimitReset_scheduling_witness :
    FormHandler.checkAndUpdateRateLimitDisplay (some FormHandler.pEx) FormHandler.parseEx
        (Except.ok (some "[0]")) 1000 =
      some (FormHandler.listMin (FormHandler.recentAttemptsOf FormHandler.pEx
              FormHandler.parseEx (Except.ok (some "[0]")) 1000) +
            FormHandler.attemptWindowMs FormHandler.pEx) ∧
    FormHandler.scheduleRateLimitReset (some 7) 5 10 = (some 7, true) ∧
    FormHandler.scheduleRateLimitReset (some 7) 99 10 = (some 99, false) :=
  ⟨(rateLimitReset_scheduling FormHandler.pEx FormHandler.parseEx
      (Except.ok (some "[0]")) 1000 (some 7) 5).1 (by decide) (by decide),
   (rateLimitReset_scheduling FormHandler.pEx FormHandler.parseEx
      (Except.ok (some "[0]")) 10 (some 7) 5).2.2.2.1 (by decide),
   (rateLimitReset_scheduling FormHandler.pEx FormHandler.parseEx
      (Except.ok (some "[0]")) 10 (some 7) 99).2.2.2.2 (by decide)⟩

/-- C5: a throwing storage read and unparsable stored content both yield
the empty log; a failing storage write is swallowed and the save returns
normally; and with a positive maximum the gate admits after a failed read
(fail open). -/
theorem storage_failure_semantics :
    ∀ (cfg : Option RateLimitPolicy) (p : RateLimitPolicy)
      (parse : String → Option (List Int)) (s : String)
      (w : Except Unit Unit) (now : Int),
    (FormHandler.getSubmissionAttempts cfg parse (Except.error ()) = []) ∧
    (parse s = none →
       FormHandler.getSubmissionAttempts cfg parse (Except.ok (some s)) = []) ∧
    (FormHandler.saveSubmissionAttempts cfg w = Except.ok ()) ∧
    (0 < p.MAX_ATTEMPTS_PER_HOUR →
       FormHandler.canSubmit (some p) parse (Except.error ()) now = true) := by
  intro cfg p parse s w now
  refine ⟨?_, ?_, ?_, ?_⟩
  · cases cfg <;> rfl
  · intro hp
    cases cfg with
    | none => rfl
    | some q =>
      simp only [FormHandler.getSubmissionAttempts]
      by_cases hs : s = ""
      · rw [if_pos hs]
      · rw [if_neg hs, hp]
  · cases cfg with
    | none => rfl
    | some q => cases w <;> rfl
  · intro hm
    simp [FormHandler.canSubmit, FormHandler.getSubmissionAttempts]
    omega

/-- C5 witness: concrete instances: a throwing read yields the empty log,
unparsable content yields the empty log, a throwing write returns
normally, and the gate admits after a failed read. -/
theorem storage_failure_semantics_witness :
    FormHandler.getSubmissionAttempts (some FormHandler.pEx) FormHandler.parseEx
        (Except.error ()) = [] ∧
    FormHandler.getSubmissionAttempts (some FormHandler.pEx) FormHandler.parseEx
        (Except.ok (some "zz")) = [] ∧
    FormHandler.saveSubmissionAttempts (some FormHandler.pEx) (Except.error ()) =
      Except.ok () ∧
    FormHandler.canSubmit (some FormHandler.pEx) FormHandler.parseEx
        (Except.error ()) 0 = true :=
  ⟨(storage_failure_semantics (some FormHandler.pEx) FormHandler.pEx
      FormHandler.parseEx "zz" (Except.error ()) 0).1,
   (storage_failure_semantics (some FormHandler.pEx) FormHandler.pEx
      FormHandler.parseEx "zz" (Except.error ()) 0).2.1 (by decide),
   (storage_failure_semantics (some FormHandler.pEx) FormHandler.pEx
      FormHandler.parseEx "zz" (Except.error ()) 0).2.2.1,
   (storage_failure_semantics (some FormHandler.pEx) FormHandler.pEx
      FormHandler.parseEx "zz" (Except.error ()) 0).2.2.2 (by decide)⟩
